import Mathlib

/-!
Verification of the Riffy reverse proxy (src/main.rs): a shallow embedding
of the round-robin upstream selection, the request forwarder
(`handle_proxy`), and the startup pool construction (`main`, lines 42-59),
with theorems settling the specification's claims about them.
-/

namespace Riffy

/-- An HTTP request as the forwarder sees it: method, target URI as
received on the wire (for origin-form inbound requests this is the
path-and-query, which is what `req.uri()` displays), headers, and an
opaque body (modelled as a string of bytes). -/
structure HttpRequest where
  method : String
  uri : String
  headers : List (String × String)
  body : String
deriving DecidableEq, Repr

/-- An HTTP response: status, headers, body. -/
structure HttpResponse where
  status : Nat
  headers : List (String × String)
  body : String
deriving DecidableEq, Repr

/-- The external collaborators of `handle_proxy`: `parseOk` models whether
`uri_string.parse::<Uri>()` (line 24) succeeds on a given string, and
`transport` models `client.request(proxy_req).await` (line 31), which
either yields the upstream's response or fails at the connection/transport
layer.  The error type is `Unit` because the source boxes every failure
into the same opaque `Box<dyn Error + Send + Sync>`. -/
structure ProxyEnv where
  parseOk : String → Bool
  transport : HttpRequest → Except Unit HttpResponse

/-- Line 23: `format!("{}{}", upstream_server, req.uri())` — plain string
concatenation of the selected upstream base with the inbound target. -/
def buildUriString (upstream inboundUri : String) : String :=
  upstream ++ inboundUri

/-- Lines 26-29: `Request::builder().method(req.method()).uri(uri)
.body(req.into_body())`.  The builder starts from an empty header map and
the source never copies `req.headers()`, so the outbound request carries
no headers; only method, target URI and body come from the inbound
request. -/
def buildProxyReq (req : HttpRequest) (uriString : String) : HttpRequest :=
  { method := req.method, uri := uriString, headers := [], body := req.body }

/-- The number of values of the 64-bit `usize` the counter is stored in:
`AtomicUsize` arithmetic is modulo `2 ^ 64` on the 64-bit targets the
server builds for. -/
def usizeSize : Nat := 2 ^ 64

theorem usizeSize_pos : 0 < usizeSize := pow_pos (by decide) 64

/-- `AtomicUsize::fetch_add(1, Ordering::SeqCst)` (line 19): an atomic,
indivisible step that returns the previous counter value and leaves the
incremented value behind.  Rust's `fetch_add` wraps around on overflow,
so the stored value is incremented modulo `2 ^ 64`. -/
def fetchAdd (c : Nat) : Nat × Nat := (c, (c + 1) % usizeSize)

/-- The observable outcome of one `handle_proxy` call: the sequence number
the call's `fetch_add` drew, the index derived from it, the selected
upstream, the concatenated URI string, the outbound request handed to the
client (`none` when URI parsing failed before the builder ran), the result
returned to the caller, and the counter value after the call's single
`fetch_add`. -/
structure ForwardResult where
  draw : Nat
  index : Nat
  upstream : String
  uriString : String
  outbound : Option HttpRequest
  result : Except Unit HttpResponse
  counterAfter : Nat

/-- Lines 15-34, `handle_proxy`.  `counter` is the value the atomic held
when this call's `fetch_add(1, SeqCst)` ran (line 19): the call draws
`counter` and leaves `(counter + 1) % 2 ^ 64` behind (the `usize`
counter wraps on overflow).  The index is the draw mod the
pool length, the upstream is `upstream_servers[index]` (line 20, in
bounds because the pool is non-empty), the URI string is verbatim
concatenation (line 23).  If the URI string fails to parse the call
returns the boxed parse error (`?` on line 24) — the counter having
already advanced; otherwise the outbound request is built and issued
once, and its outcome (response or boxed transport error) is returned
as-is (lines 31-33). -/
def handleProxy (env : ProxyEnv) (pool : List String) (hp : 0 < pool.length)
    (counter : Nat) (req : HttpRequest) : ForwardResult :=
  let s := fetchAdd counter
  let index := s.1 % pool.length
  let upstream := pool.get ⟨index, Nat.mod_lt s.1 hp⟩
  let uriString := buildUriString upstream req.uri
  let proxyReq := buildProxyReq req uriString
  { draw := s.1
    index := index
    upstream := upstream
    uriString := uriString
    outbound := if env.parseOk uriString then some proxyReq else none
    result := if env.parseOk uriString then env.transport proxyReq else Except.error ()
    counterAfter := s.2 }

/-- A sequence of forwarded requests served one after another, threading
the shared counter through: the process-lifetime behaviour of the proxy
for a fixed pool, starting from counter value `c`. -/
def runForwards (env : ProxyEnv) (pool : List String) (hp : 0 < pool.length) :
    Nat → List HttpRequest → List ForwardResult
  | _, [] => []
  | c, req :: reqs =>
    let fr := handleProxy env pool hp c req
    fr :: runForwards env pool hp fr.counterAfter reqs

/-- Rust's `str::split(',')` on the underlying character list: splits at
every comma, keeping empty pieces, and on the empty string yields the
single piece `[]` — `split` never yields zero pieces. -/
def splitComma : List Char → List (List Char)
  | [] => [[]]
  | c :: cs =>
    let r := splitComma cs
    if c = ',' then [] :: r
    else (c :: r.headI) :: r.tail

/-- Rust's `str::trim`: drop whitespace from both ends of a piece.
(`char::is_whitespace` is Unicode; the ASCII whitespace handled by
`Char.isWhitespace` covers the characters that matter here.) -/
def rustTrim (s : List Char) : List Char :=
  ((s.dropWhile Char.isWhitespace).reverse.dropWhile Char.isWhitespace).reverse

/-- Line 43: `upstream_servers_str.split(',').map(|s| s.trim().to_string())
.collect()` — the upstream pool built from the configuration string. -/
def upstreamPool (cfg : String) : List String :=
  (splitComma cfg.data).map (fun p => String.mk (rustTrim p))

/-- Rust's `str::parse::<u16>`: an optional leading `+`, then one or more
ASCII digits whose value fits in 16 bits; anything else fails. -/
def parseU16 (s : String) : Option Nat :=
  let cs := match s.data with
    | '+' :: rest => rest
    | other => other
  if cs ≠ [] ∧ cs.all Char.isDigit then
    let v := cs.foldl (fun acc c => acc * 10 + (c.toNat - 48)) 0
    if v < 65536 then some v else none
  else none

/-- Lines 42-59 of `main`: read the upstream configuration (defaulting to
`"http://localhost:8080"`), split and trim it into the pool, read the TLS
flag, read and parse the listen port (defaulting to 443 with TLS and 80
without).  `none` models the process aborting before binding (the only
`expect`/panic in these lines is the port parse); `some` carries the pool
and port the process proceeds to bind and serve with.  The source performs
no validation of the pool whatsoever. -/
def mainStartup (upstreamEnv sslEnv portEnv : Option String) :
    Option (List String × Nat) :=
  let upstreamStr := upstreamEnv.getD "http://localhost:8080"
  let pool := upstreamPool upstreamStr
  let sslEnabled := (sslEnv.getD "false") == "true"
  let portStr := portEnv.getD (if sslEnabled then "443" else "80")
  match parseU16 portStr with
  | some p => some (pool, p)
  | none => none

/-! ### Basic facts about the embedded operations -/

theorem handleProxy_draw (env : ProxyEnv) (pool : List String)
    (hp : 0 < pool.length) (c : Nat) (req : HttpRequest) :
    (handleProxy env pool hp c req).draw = c := rfl

theorem handleProxy_counterAfter (env : ProxyEnv) (pool : List String)
    (hp : 0 < pool.length) (c : Nat) (req : HttpRequest) :
    (handleProxy env pool hp c req).counterAfter = (c + 1) % usizeSize := rfl

theorem handleProxy_index (env : ProxyEnv) (pool : List String)
    (hp : 0 < pool.length) (c : Nat) (req : HttpRequest) :
    (handleProxy env pool hp c req).index = c % pool.length := rfl

theorem handleProxy_upstream (env : ProxyEnv) (pool : List String)
    (hp : 0 < pool.length) (c : Nat) (req : HttpRequest) :
    (handleProxy env pool hp c req).upstream
      = pool.get ⟨c % pool.length, Nat.mod_lt c hp⟩ := rfl

theorem handleProxy_uriString (env : ProxyEnv) (pool : List String)
    (hp : 0 < pool.length) (c : Nat) (req : HttpRequest) :
    (handleProxy env pool hp c req).uriString
      = buildUriString (pool.get ⟨c % pool.length, Nat.mod_lt c hp⟩) req.uri := rfl

/-- Running a batch of forwards from a representable counter value maps
each position `n` to an observation of the per-call function `g` at
counter value `(c + n) % 2 ^ 64` — the stored counter wraps. -/
theorem runForwards_map {α : Type} (env : ProxyEnv) (pool : List String)
    (hp : 0 < pool.length) (f : ForwardResult → α) (g : Nat → α)
    (hf : ∀ c req, f (handleProxy env pool hp c req) = g c)
    (reqs : List HttpRequest) : ∀ (c : Nat), c < usizeSize →
    (runForwards env pool hp c reqs).map f
      = (List.range reqs.length).map (fun n => g ((c + n) % usizeSize)) := by
  induction reqs with
  | nil => intro c _; rfl
  | cons req reqs ih =>
    intro c hc
    show f (handleProxy env pool hp c req)
        :: (runForwards env pool hp (handleProxy env pool hp c req).counterAfter reqs).map f
      = (List.range (reqs.length + 1)).map (fun n => g ((c + n) % usizeSize))
    rw [handleProxy_counterAfter, ih ((c + 1) % usizeSize) (Nat.mod_lt _ usizeSize_pos),
      hf, List.range_succ_eq_map, List.map_cons, List.map_map]
    congr 1
    · show g c = g ((c + 0) % usizeSize)
      rw [Nat.add_zero, Nat.mod_eq_of_lt hc]
    · refine List.map_congr_left fun a _ => ?_
      show g (((c + 1) % usizeSize + a) % usizeSize) = g ((c + (a + 1)) % usizeSize)
      rw [Nat.mod_add_mod]
      have hca : c + 1 + a = c + (a + 1) := by omega
      rw [hca]

theorem runForwards_length (env : ProxyEnv) (pool : List String)
    (hp : 0 < pool.length) : ∀ (reqs : List HttpRequest) (c : Nat),
    (runForwards env pool hp c reqs).length = reqs.length
  | [], _ => rfl
  | req :: reqs, c => by
    show (runForwards env pool hp
        (handleProxy env pool hp c req).counterAfter reqs).length + 1
      = reqs.length + 1
    rw [runForwards_length env pool hp reqs _]

theorem splitComma_length_pos : ∀ (l : List Char), 0 < (splitComma l).length
  | [] => Nat.one_pos
  | c :: cs => by
    show 0 < (let r := splitComma cs; if c = ',' then [] :: r else (c :: r.headI) :: r.tail).length
    by_cases h : c = ',' <;> simp [h]

theorem upstreamPool_length_pos (cfg : String) : 0 < (upstreamPool cfg).length := by
  show 0 < ((splitComma cfg.data).map _).length
  rw [List.length_map]
  exact splitComma_length_pos cfg.data

/-- Each residue below `n` occurs exactly `k` times among the residues of
`0, 1, ..., k*n - 1`. -/
theorem count_mod_range (n i : Nat) (hi : i < n) :
    ∀ (k : Nat), ((List.range (k * n)).map (fun m => m % n)).count i = k
  | 0 => by simp
  | (k + 1) => by
    have hkn : (k + 1) * n = k * n + n := by ring
    rw [hkn, List.range_add, List.map_append, List.count_append,
      count_mod_range n i hi k]
    have hmap : ((List.range n).map (fun x => k * n + x)).map (fun m => m % n)
        = List.range n := by
      rw [List.map_map]
      have hcg : ∀ a ∈ List.range n,
          ((fun m => m % n) ∘ (fun x => k * n + x)) a = id a := by
        intro a ha
        show (k * n + a) % n = a
        rw [Nat.add_comm, Nat.add_mul_mod_self_right]
        exact Nat.mod_eq_of_lt (List.mem_range.mp ha)
      rw [List.map_congr_left hcg, List.map_id]
    rw [hmap, List.count_eq_one_of_mem (List.nodup_range n) (List.mem_range.mpr hi)]

theorem handleProxy_outbound (env : ProxyEnv) (pool : List String)
    (hp : 0 < pool.length) (c : Nat) (req : HttpRequest) :
    (handleProxy env pool hp c req).outbound
      = if env.parseOk (handleProxy env pool hp c req).uriString
          then some (buildProxyReq req (handleProxy env pool hp c req).uriString)
          else none := rfl

theorem handleProxy_result (env : ProxyEnv) (pool : List String)
    (hp : 0 < pool.length) (c : Nat) (req : HttpRequest) :
    (handleProxy env pool hp c req).result
      = if env.parseOk (handleProxy env pool hp c req).uriString
          then env.transport (buildProxyReq req (handleProxy env pool hp c req).uriString)
          else Except.error () := rfl

/-- Every element of a batch run is a `handleProxy` call at some counter
value. -/
theorem runForwards_mem (env : ProxyEnv) (pool : List String)
    (hp : 0 < pool.length) :
    ∀ (reqs : List HttpRequest) (c : Nat) (fr : ForwardResult),
      fr ∈ runForwards env pool hp c reqs →
      ∃ c' req', fr = handleProxy env pool hp c' req'
  | [], _, fr, h => absurd h (List.not_mem_nil fr)
  | req :: reqs, c, fr, h => by
    rcases List.mem_cons.mp h with h1 | h2
    · exact ⟨c, req, h1⟩
    · exact runForwards_mem env pool hp reqs _ fr h2

/-- `mainStartup` unfolded to its decision on the port string. -/
theorem mainStartup_eq (u s p : Option String) :
    mainStartup u s p
      = match parseU16 (p.getD (if (s.getD "false") == "true" then "443" else "80")) with
        | some q => some (upstreamPool (u.getD "http://localhost:8080"), q)
        | none => none := rfl

/-! ### Concrete fixtures used by witnesses and counterexamples -/

/-- A fixed upstream response. -/
def respW : HttpResponse := { status := 200, headers := [], body := "ok" }

/-- Environment in which every URI parses and the upstream answers. -/
def envW : ProxyEnv :=
  { parseOk := fun _ => true, transport := fun _ => Except.ok respW }

/-- Environment in which every URI parses but the transport fails. -/
def envDown : ProxyEnv :=
  { parseOk := fun _ => true, transport := fun _ => Except.error () }

/-- Environment in which URI parsing fails. -/
def envBadUri : ProxyEnv :=
  { parseOk := fun _ => false, transport := fun _ => Except.ok respW }

/-- A two-upstream pool. -/
def poolW : List String := ["http://a:1", "http://b:2"]

theorem poolW_pos : 0 < poolW.length := Nat.succ_pos 1

/-- A header-free GET request for a given target. -/
def reqW (u : String) : HttpRequest :=
  { method := "GET", uri := u, headers := [], body := "" }

/-- Four sequential requests. -/
def reqsW : List HttpRequest := [reqW "/a", reqW "/b", reqW "/c", reqW "/d"]

/-- A request that carries a header. -/
def reqHdr : HttpRequest :=
  { method := "GET", uri := "/x", headers := [("x-test", "1")], body := "b" }

/-- A three-upstream pool; 3 does not divide `2 ^ 64`, so the round-robin
cycle breaks when the counter wraps. -/
def pool3 : List String := ["http://a:1", "http://b:2", "http://c:3"]

theorem pool3_pos : 0 < pool3.length := Nat.succ_pos 2

/-! ### Claims -/

/-- C1 counterexample: the wrapping `usize` counter breaks the
unconditional `pool[N mod pool.length]` claim.  Over a three-upstream
pool, request number `2 ^ 64` (0-indexed) observes the wrapped counter
value 0 and selects index 0 — upstream `http://a:1` — while
`2 ^ 64 mod 3 = 1` names index 1, upstream `http://b:2`. -/
theorem roundRobin_wrap_cex :
    ((runForwards envW pool3 pool3_pos 0
          (List.replicate (usizeSize + 1) (reqW "/x"))).map ForwardResult.index)[usizeSize]?
        = some 0
    ∧ ((runForwards envW pool3 pool3_pos 0
          (List.replicate (usizeSize + 1) (reqW "/x"))).map ForwardResult.upstream)[usizeSize]?
        = some "http://a:1"
    ∧ usizeSize % pool3.length = 1
    ∧ pool3.getD (usizeSize % pool3.length) "" = "http://b:2" := by
  have hidx := runForwards_map envW pool3 pool3_pos ForwardResult.index
    (fun c => c % pool3.length) (fun c req => handleProxy_index envW pool3 pool3_pos c req)
    (List.replicate (usizeSize + 1) (reqW "/x")) 0 usizeSize_pos
  have hup := runForwards_map envW pool3 pool3_pos ForwardResult.upstream
    (fun c => pool3.getD (c % pool3.length) "")
    (fun c req => by
      rw [handleProxy_upstream]
      exact (List.getD_eq_getElem pool3 "" (Nat.mod_lt c pool3_pos)).symm)
    (List.replicate (usizeSize + 1) (reqW "/x")) 0 usizeSize_pos
  simp only [Nat.zero_add, List.length_replicate] at hidx hup
  refine ⟨?_, ?_, by decide, by decide⟩
  · rw [hidx, List.getElem?_map, List.getElem?_range (Nat.lt_succ_self usizeSize)]
    simp [Nat.mod_self]
  · rw [hup, List.getElem?_map, List.getElem?_range (Nat.lt_succ_self usizeSize)]
    simp [Nat.mod_self]
    rfl

/-- C1 amended: with a fixed non-empty pool and the counter starting at 0,
the Nth forwarded request (0-indexed over the process lifetime) draws
index `(N mod 2^64) mod pool.length` and selects that pool entry — the
`usize` counter wraps at `2 ^ 64`.  For the first `2 ^ 64` requests this
is `pool[N mod pool.length]`, and over `M = k · N` sequential requests
with `M ≤ 2 ^ 64`, each pool index is selected exactly `k = M / N` times,
in cyclic order starting from index 0. -/
theorem roundRobin_cycles (env : ProxyEnv) (pool : List String)
    (hp : 0 < pool.length) (reqs : List HttpRequest) :
    (runForwards env pool hp 0 reqs).map ForwardResult.index
        = (List.range reqs.length).map (fun n => (n % usizeSize) % pool.length)
    ∧ (runForwards env pool hp 0 reqs).map ForwardResult.upstream
        = (List.range reqs.length).map
            (fun n => pool.getD ((n % usizeSize) % pool.length) "")
    ∧ (reqs.length ≤ usizeSize →
        (runForwards env pool hp 0 reqs).map ForwardResult.index
          = (List.range reqs.length).map (fun n => n % pool.length))
    ∧ (∀ k, reqs.length = k * pool.length → reqs.length ≤ usizeSize →
        ∀ i, i < pool.length →
          ((runForwards env pool hp 0 reqs).map ForwardResult.index).count i = k) := by
  have hidx := runForwards_map env pool hp ForwardResult.index (fun c => c % pool.length)
    (fun c req => handleProxy_index env pool hp c req) reqs 0 usizeSize_pos
  have hup := runForwards_map env pool hp ForwardResult.upstream
    (fun c => pool.getD (c % pool.length) "")
    (fun c req => by
      rw [handleProxy_upstream]
      exact (List.getD_eq_getElem pool "" (Nat.mod_lt c hp)).symm) reqs 0 usizeSize_pos
  simp only [Nat.zero_add] at hidx hup
  have hbnd : reqs.length ≤ usizeSize →
      (runForwards env pool hp 0 reqs).map ForwardResult.index
        = (List.range reqs.length).map (fun n => n % pool.length) := by
    intro hs
    rw [hidx]
    refine List.map_congr_left fun n hn => ?_
    rw [Nat.mod_eq_of_lt (lt_of_lt_of_le (List.mem_range.mp hn) hs)]
  refine ⟨hidx, hup, hbnd, ?_⟩
  intro k hk hs i hi
  rw [hbnd hs, hk]
  exact count_mod_range pool.length i hi k

theorem roundRobin_cycles_witness :
    (runForwards envW poolW poolW_pos 0 reqsW).map ForwardResult.index = [0, 1, 0, 1]
    ∧ ((runForwards envW poolW poolW_pos 0 reqsW).map ForwardResult.index).count 1 = 2 := by
  have h := roundRobin_cycles envW poolW poolW_pos reqsW
  refine ⟨?_, h.2.2.2 2 (by decide) (by decide) 1 (by decide)⟩
  rw [h.2.2.1 (by decide)]
  decide

/-- C6: every `handle_proxy` call advances the counter by exactly one
`fetch_add` step (one wrapping increment of the `usize` counter), whether
it succeeds or fails (URI-parse failure included, since the `fetch_add`
on line 19 precedes the parse), and the returned result is the outcome of
the single outbound attempt — no retry happens. -/
theorem counter_advances_once (env : ProxyEnv) (pool : List String)
    (hp : 0 < pool.length) (c : Nat) (req : HttpRequest) :
    (handleProxy env pool hp c req).counterAfter = (c + 1) % usizeSize
    ∧ (∀ o, (handleProxy env pool hp c req).outbound = some o →
        (handleProxy env pool hp c req).result = env.transport o)
    ∧ ((handleProxy env pool hp c req).outbound = none →
        (handleProxy env pool hp c req).result = Except.error ()) := by
  refine ⟨rfl, ?_, ?_⟩
  · intro o ho
    rw [handleProxy_outbound] at ho
    rw [handleProxy_result]
    by_cases hc : env.parseOk (handleProxy env pool hp c req).uriString = true
    · rw [if_pos hc] at ho
      injection ho with h2
      rw [if_pos hc, h2]
    · rw [if_neg hc] at ho
      exact absurd ho (by simp)
  · intro ho
    rw [handleProxy_outbound] at ho
    rw [handleProxy_result]
    by_cases hc : env.parseOk (handleProxy env pool hp c req).uriString = true
    · rw [if_pos hc] at ho
      exact absurd ho (by simp)
    · rw [if_neg hc]

theorem counter_advances_once_witness :
    (handleProxy envBadUri poolW poolW_pos 7 (reqW "/x")).counterAfter
      = (7 + 1) % usizeSize :=
  (counter_advances_once envBadUri poolW poolW_pos 7 (reqW "/x")).1

/-- C7 counterexample: the wrapping `usize` counter reassigns drawn
sequence numbers.  In a batch of `2 ^ 64 + 1` forward calls the first
call and call number `2 ^ 64` both draw the value 0, so the draws are not
globally unique. -/
theorem draws_wrap_cex :
    ((runForwards envW poolW poolW_pos 0
          (List.replicate (usizeSize + 1) (reqW "/x"))).map ForwardResult.draw)[0]?
        = some 0
    ∧ ((runForwards envW poolW poolW_pos 0
          (List.replicate (usizeSize + 1) (reqW "/x"))).map ForwardResult.draw)[usizeSize]?
        = some 0
    ∧ ¬ ((runForwards envW poolW poolW_pos 0
          (List.replicate (usizeSize + 1) (reqW "/x"))).map ForwardResult.draw).Nodup := by
  have hdraw := runForwards_map envW poolW poolW_pos ForwardResult.draw (fun c => c)
    (fun c req => handleProxy_draw envW poolW poolW_pos c req)
    (List.replicate (usizeSize + 1) (reqW "/x")) 0 usizeSize_pos
  simp only [Nat.zero_add, List.length_replicate] at hdraw
  refine ⟨?_, ?_, ?_⟩
  · rw [hdraw, List.getElem?_map, List.getElem?_range (Nat.succ_pos usizeSize)]
    simp
  · rw [hdraw, List.getElem?_map, List.getElem?_range (Nat.lt_succ_self usizeSize)]
    simp [Nat.mod_self]
  · rw [hdraw]
    intro hnd
    rw [List.range_succ, List.map_append, List.nodup_append] at hnd
    have h0 : (0 : Nat) ∈ (List.range usizeSize).map (fun n => n % usizeSize) :=
      List.mem_map.mpr ⟨0, List.mem_range.mpr usizeSize_pos, Nat.zero_mod usizeSize⟩
    exact hnd.2.2 h0 (by simp [Nat.mod_self])

/-- C7 amended: the counter draws of an arbitrary batch of forward calls,
listed in the order their atomic `fetch_add(1, SeqCst)` steps took effect
(every concurrent execution linearises to such an order, `reqs` standing
for any interleaving of the K in-flight calls), are
`0 % 2^64, 1 % 2^64, ..., (K-1) % 2^64`: for K ≤ 2^64 concurrent calls
the draws are exactly `0, 1, ..., K - 1` — pairwise distinct, strictly
increasing, no skipped position — but beyond `2 ^ 64` draws the wrapping
counter reassigns values.  Each call's index is its own draw mod the pool
length. -/
theorem concurrent_draws_unique (env : ProxyEnv) (pool : List String)
    (hp : 0 < pool.length) (reqs : List HttpRequest) :
    (runForwards env pool hp 0 reqs).map ForwardResult.draw
        = (List.range reqs.length).map (fun n => n % usizeSize)
    ∧ (reqs.length ≤ usizeSize →
        (runForwards env pool hp 0 reqs).map ForwardResult.draw = List.range reqs.length
        ∧ ((runForwards env pool hp 0 reqs).map ForwardResult.draw).Nodup
        ∧ List.Pairwise (· < ·)
            ((runForwards env pool hp 0 reqs).map ForwardResult.draw))
    ∧ (runForwards env pool hp 0 reqs).length = reqs.length
    ∧ (∀ fr ∈ runForwards env pool hp 0 reqs, fr.index = fr.draw % pool.length) := by
  have hdraw := runForwards_map env pool hp ForwardResult.draw (fun c => c)
    (fun c req => handleProxy_draw env pool hp c req) reqs 0 usizeSize_pos
  simp only [Nat.zero_add] at hdraw
  have hbnd : reqs.length ≤ usizeSize →
      (runForwards env pool hp 0 reqs).map ForwardResult.draw
        = List.range reqs.length := by
    intro hs
    rw [hdraw]
    have hcg : ∀ n ∈ List.range reqs.length, n % usizeSize = n := fun n hn =>
      Nat.mod_eq_of_lt (lt_of_lt_of_le (List.mem_range.mp hn) hs)
    rw [List.map_congr_left hcg, List.map_id' (List.range reqs.length)]
  refine ⟨hdraw, ?_, runForwards_length env pool hp reqs 0, ?_⟩
  · intro hs
    refine ⟨hbnd hs, ?_, ?_⟩
    · rw [hbnd hs]
      exact List.nodup_range reqs.length
    · rw [hbnd hs]
      exact List.pairwise_lt_range reqs.length
  · intro fr hfr
    obtain ⟨c', req', rfl⟩ := runForwards_mem env pool hp reqs 0 fr hfr
    rfl

theorem concurrent_draws_unique_witness :
    (runForwards envW poolW poolW_pos 0 reqsW).map ForwardResult.draw = [0, 1, 2, 3] := by
  have h := concurrent_draws_unique envW poolW poolW_pos reqsW
  rw [(h.2.1 (by decide)).1]
  decide

/-- C9: splitting any upstream-servers configuration string (the empty
string included) on commas yields at least one element, so the pool is
non-empty, the modulo in `handle_proxy` is never by zero, and the drawn
index is always in bounds. -/
theorem pool_nonempty_index_safe (cfg : String) (c : Nat) :
    0 < (upstreamPool cfg).length
    ∧ c % (upstreamPool cfg).length < (upstreamPool cfg).length
    ∧ ∀ (hp : 0 < (upstreamPool cfg).length) (env : ProxyEnv) (req : HttpRequest),
        (handleProxy env (upstreamPool cfg) hp c req).index
          < (upstreamPool cfg).length := by
  have hpos := upstreamPool_length_pos cfg
  refine ⟨hpos, Nat.mod_lt c hpos, ?_⟩
  intro hp env req
  rw [handleProxy_index]
  exact Nat.mod_lt c hpos

theorem pool_nonempty_index_safe_witness :
    (handleProxy envW (upstreamPool "") (upstreamPool_length_pos "") 5 (reqW "/x")).index
      < (upstreamPool "").length :=
  (pool_nonempty_index_safe "" 5).2.2 (upstreamPool_length_pos "") envW (reqW "/x")

/-- C10: the selected index and upstream depend only on the drawn counter
value and the pool — two calls observing the same counter over the same
pool select identically, whatever their requests (method, URI, headers,
body) or environments. -/
theorem selection_ignores_request (env₁ env₂ : ProxyEnv) (pool : List String)
    (hp : 0 < pool.length) (c : Nat) (req₁ req₂ : HttpRequest) :
    (handleProxy env₁ pool hp c req₁).index = (handleProxy env₂ pool hp c req₂).index
    ∧ (handleProxy env₁ pool hp c req₁).upstream
        = (handleProxy env₂ pool hp c req₂).upstream
    ∧ (handleProxy env₁ pool hp c req₁).index = c % pool.length :=
  ⟨rfl, rfl, rfl⟩

theorem selection_ignores_request_witness :
    (handleProxy envW poolW poolW_pos 3 (reqW "/a")).index
      = (handleProxy envDown poolW poolW_pos 3 reqHdr).index :=
  (selection_ignores_request envW envDown poolW poolW_pos 3 (reqW "/a") reqHdr).1

/-- C2 counterexample: the outbound request does not carry the inbound
headers — `Request::builder()` starts from an empty header map and the
source never copies `req.headers()`.  Concretely, an inbound request with
header `x-test: 1` yields an outbound request with no headers at all. -/
theorem headers_dropped_cex :
    reqHdr.headers = [("x-test", "1")]
    ∧ (handleProxy envW poolW poolW_pos 0 reqHdr).outbound.map HttpRequest.headers
        = some []
    ∧ (handleProxy envW poolW poolW_pos 0 reqHdr).outbound.map HttpRequest.headers
        ≠ some reqHdr.headers := by
  refine ⟨rfl, rfl, ?_⟩
  decide

/-- C2 amended: far from passing headers through unmodified, the forwarder
drops every inbound header — each outbound request it constructs has an
empty header map. -/
theorem outbound_headers_empty (env : ProxyEnv) (pool : List String)
    (hp : 0 < pool.length) (c : Nat) (req : HttpRequest) (o : HttpRequest)
    (h : (handleProxy env pool hp c req).outbound = some o) :
    o.headers = [] := by
  rw [handleProxy_outbound] at h
  by_cases hc : env.parseOk (handleProxy env pool hp c req).uriString = true
  · rw [if_pos hc] at h
    injection h with h2
    rw [← h2]
    rfl
  · rw [if_neg hc] at h
    exact absurd h (by simp)

theorem outbound_headers_empty_witness :
    (buildProxyReq reqHdr (buildUriString "http://a:1" "/x")).headers = [] :=
  outbound_headers_empty envW poolW poolW_pos 0 reqHdr
    (buildProxyReq reqHdr (buildUriString "http://a:1" "/x")) (by decide)

/-- C3: the outbound target is the verbatim string concatenation of the
selected upstream base with the inbound target — no normalization, no
structured URI merging; `http://a:1` with `/x?y=1` gives exactly
`http://a:1/x?y=1`, and a base ending in a path segment concatenates
verbatim even when that yields double slashes. -/
theorem uri_verbatim_concat (env : ProxyEnv) (pool : List String)
    (hp : 0 < pool.length) (c : Nat) (req : HttpRequest) :
    (handleProxy env pool hp c req).uriString
        = (handleProxy env pool hp c req).upstream ++ req.uri
    ∧ (∀ o, (handleProxy env pool hp c req).outbound = some o →
        o.uri = (handleProxy env pool hp c req).upstream ++ req.uri)
    ∧ buildUriString "http://a:1" "/x?y=1" = "http://a:1/x?y=1"
    ∧ buildUriString "http://a:1/" "/x?y=1" = "http://a:1//x?y=1" := by
  refine ⟨rfl, ?_, rfl, rfl⟩
  intro o h
  rw [handleProxy_outbound] at h
  by_cases hc : env.parseOk (handleProxy env pool hp c req).uriString = true
  · rw [if_pos hc] at h
    injection h with h2
    rw [← h2]
    rfl
  · rw [if_neg hc] at h
    exact absurd h (by simp)

theorem uri_verbatim_concat_witness :
    (handleProxy envW poolW poolW_pos 0 (reqW "/x?y=1")).uriString
        = (handleProxy envW poolW poolW_pos 0 (reqW "/x?y=1")).upstream
            ++ (reqW "/x?y=1").uri
    ∧ (handleProxy envW poolW poolW_pos 0 (reqW "/x?y=1")).uriString
        = "http://a:1/x?y=1" :=
  ⟨(uri_verbatim_concat envW poolW poolW_pos 0 (reqW "/x?y=1")).1, by decide⟩

/-- C4: the outbound request constructed by the forwarder carries the
inbound request's method and body unchanged. -/
theorem method_body_preserved (env : ProxyEnv) (pool : List String)
    (hp : 0 < pool.length) (c : Nat) (req : HttpRequest) (o : HttpRequest)
    (h : (handleProxy env pool hp c req).outbound = some o) :
    o.method = req.method ∧ o.body = req.body := by
  rw [handleProxy_outbound] at h
  by_cases hc : env.parseOk (handleProxy env pool hp c req).uriString = true
  · rw [if_pos hc] at h
    injection h with h2
    rw [← h2]
    exact ⟨rfl, rfl⟩
  · rw [if_neg hc] at h
    exact absurd h (by simp)

theorem method_body_preserved_witness :
    (buildProxyReq reqHdr (buildUriString "http://a:1" "/x")).method = reqHdr.method
    ∧ (buildProxyReq reqHdr (buildUriString "http://a:1" "/x")).body = reqHdr.body :=
  method_body_preserved envW poolW poolW_pos 0 reqHdr
    (buildProxyReq reqHdr (buildUriString "http://a:1" "/x")) (by decide)

/-- C5: the forward operation fails exactly when the concatenated URI
string is unparsable or the single outbound call fails at the transport
layer; every failure is the same opaque value (the source boxes both into
one `Box<dyn Error>`), and on success the upstream's response is returned
unmodified. -/
theorem forward_error_semantics (env : ProxyEnv) (pool : List String)
    (hp : 0 < pool.length) (c : Nat) (req : HttpRequest) :
    ((handleProxy env pool hp c req).result = Except.error ()
      ↔ (env.parseOk (handleProxy env pool hp c req).uriString = false
         ∨ env.transport (buildProxyReq req (handleProxy env pool hp c req).uriString)
             = Except.error ()))
    ∧ (∀ resp, env.parseOk (handleProxy env pool hp c req).uriString = true →
        env.transport (buildProxyReq req (handleProxy env pool hp c req).uriString)
          = Except.ok resp →
        (handleProxy env pool hp c req).result = Except.ok resp)
    ∧ (∀ e, (handleProxy env pool hp c req).result = Except.error e → e = ()) := by
  by_cases hc : env.parseOk (handleProxy env pool hp c req).uriString = true
  · rw [handleProxy_result, if_pos hc]
    refine ⟨?_, ?_, fun e _ => rfl⟩
    · constructor
      · intro he
        exact Or.inr he
      · intro h
        rcases h with h | h
        · rw [h] at hc
          exact absurd hc (by simp)
        · exact h
    · intro resp _ ht
      exact ht
  · rw [handleProxy_result, if_neg hc]
    rw [Bool.not_eq_true] at hc
    refine ⟨?_, ?_, fun e _ => rfl⟩
    · exact ⟨fun _ => Or.inl hc, fun _ => rfl⟩
    · intro resp hresp _
      rw [hresp] at hc
      exact absurd hc (by simp)

theorem forward_error_semantics_witness :
    (handleProxy envW poolW poolW_pos 0 (reqW "/x")).result = Except.ok respW :=
  (forward_error_semantics envW poolW poolW_pos 0 (reqW "/x")).2.1 respW rfl rfl

/-- C8 counterexample: with the upstream-servers configuration set to the
empty string, startup does not abort — splitting yields the one-element
pool `[""]` and the process proceeds to bind and serve (port defaults to
80 without TLS). -/
theorem empty_upstream_no_abort_cex :
    mainStartup (some "") none none = some ([""], 80)
    ∧ mainStartup (some "") none none ≠ none := by
  refine ⟨by decide, by decide⟩

/-- C8 amended: startup performs no empty-pool validation — it can never
see an empty pool, because splitting any configuration string on commas
yields at least one (possibly empty-string) entry; the only abort in the
startup prelude is an unparsable listen-port string, and every startup
that proceeds does so with a non-empty pool. -/
theorem startup_pool_never_validated (u s p : Option String) :
    (∀ pool port, mainStartup u s p = some (pool, port) → pool ≠ [])
    ∧ (mainStartup u s p = none ↔
        parseU16 (p.getD (if (s.getD "false") == "true" then "443" else "80")) = none) := by
  rw [mainStartup_eq]
  cases hpp : parseU16 (p.getD (if (s.getD "false") == "true" then "443" else "80")) with
  | none =>
    refine ⟨?_, by simp⟩
    intro pool port h
    exact absurd h (by simp)
  | some q =>
    refine ⟨?_, by simp⟩
    intro pool port h
    simp only [Option.some.injEq, Prod.mk.injEq] at h
    rw [← h.1]
    exact List.length_pos.mp (upstreamPool_length_pos (u.getD "http://localhost:8080"))

theorem startup_pool_never_validated_witness :
    upstreamPool "" ≠ [] :=
  (startup_pool_never_validated (some "") none none).1 (upstreamPool "") 80 (by decide)

end Riffy
